import Mathlib

set_option maxRecDepth 4000

/-!
Shallow embedding of the Kafka wire-protocol client in `src/main.rs`
(`KafkaClient`): the varint codec, the request builders, the frame
receive logic and the two response parsers, together with theorems about
the specification's claims.

Conventions of the embedding:
* A byte is a `Nat` (the source's `u8`; values produced by the code are
  always `< 256`, and byte-extraction helpers reduce inputs `% 256`).
* Rust's `i16` / `i32` values are represented as `Int`, with explicit
  two's-complement conversions at the byte boundary.
* A function that can hit a Rust `panic` (an unchecked slice index) is
  wrapped in `Option`: `none` is the out-of-bounds crash, `some r` is a
  regular return with `r : Except KafkaError _`.
* The source reads bytes through a cursor (`offset`) advanced in place;
  the embedding passes the cursor explicitly and returns its new value.
-/

/-- The error enum of the source (`enum KafkaError`), with the `io::Error`
payload of `IoError` dropped (only its presence is observable here). -/
inductive KafkaError where
  | ioError : KafkaError
  | protocolError : String → KafkaError
  | invalidResponse : String → KafkaError
  | connectionError : String → KafkaError
deriving DecidableEq, Repr

/-- `i32::from_be_bytes([b0,b1,b2,b3])`: big-endian bytes to a signed
32-bit value in two's complement. -/
def i32_ofBytes (b0 b1 b2 b3 : Nat) : Int :=
  let u : Nat := (b0 % 256) * 16777216 + (b1 % 256) * 65536 + (b2 % 256) * 256 + (b3 % 256)
  if u < 2147483648 then (u : Int) else (u : Int) - 4294967296

/-- `i16::from_be_bytes([b0,b1])`: big-endian bytes to a signed 16-bit
value in two's complement. -/
def i16_ofBytes (b0 b1 : Nat) : Int :=
  let u : Nat := (b0 % 256) * 256 + (b1 % 256)
  if u < 32768 then (u : Int) else (u : Int) - 65536

/-- Reinterpret an unsigned 32-bit value as `i32` (the source's
`as i32` cast on the varint result). -/
def i32_ofU32 (v : Nat) : Int :=
  if v % 4294967296 < 2147483648 then ((v % 4294967296 : Nat) : Int)
  else ((v % 4294967296 : Nat) : Int) - 4294967296

/-- `(v as i16).to_be_bytes()` for an `Int` holding the source value:
the two big-endian bytes of `v` mod 2^16. -/
def i16_toBeBytes (v : Int) : List Nat :=
  let u : Nat := (v % 65536).toNat
  [u / 256, u % 256]

/-- `(v as i32).to_be_bytes()`: the four big-endian bytes of `v` mod 2^32. -/
def i32_toBeBytes (v : Int) : List Nat :=
  let u : Nat := (v % 4294967296).toNat
  [u / 16777216, u / 65536 % 256, u / 256 % 256, u % 256]

/-- `KafkaClient::write_varint` (src/main.rs:389-404): base-128 encoding,
7 data bits per byte, low-order group first, continuation bit `0x80` on
all but the last byte.  `value &&& 0x7F` is written `value % 128`,
`value >>> 7` is written `value / 128`, and `byte ||| 0x80` is written
`byte + 128` (the low 7 bits are below the continuation bit). -/
def write_varint (value : Nat) : List Nat :=
  if h : value / 128 = 0 then [value % 128]
  else (value % 128 + 128) :: write_varint (value / 128)
decreasing_by
  exact Nat.div_lt_self (by omega) (by omega)

/-- The loop of `KafkaClient::read_varint` (src/main.rs:361-386) over the
unread suffix of the buffer.  Returns the decoded value and the number of
bytes consumed.  Per iteration the source: errors (`InvalidResponse
"Unexpected end of varint"`) when the buffer is exhausted; reads a byte;
ors `(byte & 0x7F) << shift` (a `u32` computation, hence `% 2^32`) into
the accumulator; stops when the continuation bit is clear; errors
(`ProtocolError "Varint too long"`) when the new shift reaches 32. -/
def read_varint_loop : List Nat → Nat → Nat → Except KafkaError (Nat × Nat)
  | [], _, _ => .error (.invalidResponse "Unexpected end of varint")
  | byte :: rest, result, shift =>
    let result1 := result ||| ((byte &&& 127) <<< shift) % 4294967296
    if byte &&& 128 = 0 then .ok (result1, 1)
    else if 32 ≤ shift + 7 then .error (.protocolError "Varint too long")
    else
      match read_varint_loop rest result1 (shift + 7) with
      | .ok (v, consumed) => .ok (v, consumed + 1)
      | .error e => .error e

/-- `KafkaClient::read_varint(data, &mut offset)`: decodes starting at
`offset` and returns the value together with the advanced cursor. -/
def read_varint (data : List Nat) (offset : Nat) : Except KafkaError (Nat × Nat) :=
  match read_varint_loop (data.drop offset) 0 0 with
  | .ok (v, consumed) => .ok (v, offset + consumed)
  | .error e => .error e

/-- The entry loop of `KafkaClient::read_api_versions_response`
(src/main.rs:194-218): `for i in 0..min(3, array_length)`, where each
iteration breaks out if fewer than 6 bytes remain, reads three big-endian
`i16`s (api key, min version, max version), and consumes the entry's
tagged-fields varint.  The source prints each entry; the embedding
returns the printed entries.  The counter argument is the number of
iterations the `for` loop still has. -/
def parse_entries (data : List Nat) :
    Nat → Nat → Option (Except KafkaError (List (Int × Int × Int)))
  | _, 0 => some (.ok [])
  | offset, k + 1 =>
    if data.length < offset + 6 then some (.ok [])
    else
      match data[offset]?, data[offset+1]?, data[offset+2]?,
            data[offset+3]?, data[offset+4]?, data[offset+5]? with
      | some b0, some b1, some b2, some b3, some b4, some b5 =>
        let api_key := i16_ofBytes b0 b1
        let min_version := i16_ofBytes b2 b3
        let max_version := i16_ofBytes b4 b5
        match read_varint data (offset + 6) with
        | .error e => some (.error e)
        | .ok (_tagged_fields, offset2) =>
          match parse_entries data offset2 k with
          | some (.ok rest) => some (.ok ((api_key, min_version, max_version) :: rest))
          | r => r
      | _, _, _, _, _, _ => none

/-- `KafkaClient::read_api_versions_response` (src/main.rs:143-221), the
pure part acting on the received payload `data`: checks the 4-byte
correlation id against `expected_correlation_id`, the 2-byte error code,
reads the compact array length as `varint as i32 - 1` (two's-complement
wrap of the subtraction included), and parses at most
`min(3, array_length)` entries.  `none` would be an out-of-bounds index;
every index here is behind an explicit length check, as in the source. -/
def read_api_versions_response (data : List Nat) (expected_correlation_id : Int) :
    Option (Except KafkaError (List (Int × Int × Int))) :=
  if data.length < 4 then some (.error (.invalidResponse "Response too short"))
  else
    match data[0]?, data[1]?, data[2]?, data[3]? with
    | some b0, some b1, some b2, some b3 =>
      let correlation_id := i32_ofBytes b0 b1 b2 b3
      if correlation_id ≠ expected_correlation_id then
        some (.error (.protocolError ("Correlation ID mismatch: expected "
          ++ toString expected_correlation_id ++ ", got " ++ toString correlation_id)))
      else if data.length < 4 + 2 then
        some (.error (.invalidResponse "Response too short for error code"))
      else
        match data[4]?, data[5]? with
        | some e0, some e1 =>
          let error_code := i16_ofBytes e0 e1
          if error_code ≠ 0 then
            some (.error (.protocolError ("Kafka error code: " ++ toString error_code)))
          else if data.length < 6 + 1 then
            some (.error (.invalidResponse "Response too short for array length"))
          else
            match read_varint data 6 with
            | .error e => some (.error e)
            | .ok (v, offset7) =>
              let array_length : Int := i32_ofU32 ((v + 4294967295) % 4294967296)
              parse_entries data offset7 (min 3 array_length).toNat
        | _, _ => none
    | _, _, _, _ => none

/-- `KafkaClient::read_metadata_response` (src/main.rs:301-338), the pure
part acting on the received payload: the source indexes
`response_data[0..=3]` with no length check, so a payload shorter than
4 bytes is an out-of-bounds index (`none`).  On a correlation match the
remainder of the payload is not parsed and `Ok(())` is returned. -/
def read_metadata_response (data : List Nat) (expected_correlation_id : Int) :
    Option (Except KafkaError Unit) :=
  match data[0]?, data[1]?, data[2]?, data[3]? with
  | some b0, some b1, some b2, some b3 =>
    let correlation_id := i32_ofBytes b0 b1 b2 b3
    if correlation_id ≠ expected_correlation_id then
      some (.error (.protocolError "Correlation ID mismatch"))
    else some (.ok ())
  | _, _, _, _ => none

/-- `stream.read_exact` on a buffer of `n` bytes: succeeds with the bytes
and the rest of the stream exactly when the stream holds at least `n`
bytes; otherwise the transport read fails (eof/timeout), surfaced by the
source as `KafkaError::IoError`. -/
def read_exact (stream : List Nat) (n : Nat) : Except KafkaError (List Nat × List Nat) :=
  if n ≤ stream.length then .ok (stream.take n, stream.drop n)
  else .error .ioError

/-- `v as usize` for an `i32` value `v` on a 64-bit target:
sign-extension reinterpreted as an unsigned quantity. -/
def usize_ofI32 (v : Int) : Nat :=
  (v % 18446744073709551616).toNat

/-- The frame-receive stage of `read_api_versions_response`
(src/main.rs:145-158): read a 4-byte big-endian signed length, reject it
unless `0 < len ≤ 1024*1024`, read that many payload bytes, and hand the
payload to the parser. -/
def recv_api_versions (stream : List Nat) (expected_correlation_id : Int) :
    Option (Except KafkaError (List (Int × Int × Int))) :=
  match read_exact stream 4 with
  | .error e => some (.error e)
  | .ok (size_bytes, rest) =>
    match size_bytes with
    | [s0, s1, s2, s3] =>
      let response_size := i32_ofBytes s0 s1 s2 s3
      if response_size ≤ 0 ∨ 1024 * 1024 < response_size then
        some (.error (.protocolError ("Invalid response size: " ++ toString response_size)))
      else
        match read_exact rest response_size.toNat with
        | .error e => some (.error e)
        | .ok (payload, _) => read_api_versions_response payload expected_correlation_id
    | _ => none

/-- The frame-receive stage of `read_metadata_response`
(src/main.rs:313-320): reads the 4-byte length and then — with no
validation of the length at all, unlike the api-versions path — allocates
and reads `response_size as usize` bytes. -/
def recv_metadata (stream : List Nat) (expected_correlation_id : Int) :
    Option (Except KafkaError Unit) :=
  match read_exact stream 4 with
  | .error e => some (.error e)
  | .ok (size_bytes, rest) =>
    match size_bytes with
    | [s0, s1, s2, s3] =>
      let response_size := i32_ofBytes s0 s1 s2 s3
      match read_exact rest (usize_ofI32 response_size) with
      | .error e => some (.error e)
      | .ok (payload, _) => read_metadata_response payload expected_correlation_id
    | _ => none

/-- The UTF-8 bytes of the source's hard-coded client id
`"rust-std-client"`. -/
def rust_std_client : List Nat :=
  [114, 117, 115, 116, 45, 115, 116, 100, 45, 99, 108, 105, 101, 110, 116]

/-- The request payload built by `KafkaClient::send_api_versions_request`
(src/main.rs:87-111): api key 18, api version 3, correlation id, 2-byte
length-prefixed client id, and one empty tagged-fields byte.  The source
fixes `client_id` to `"rust-std-client"`; the embedding takes the client
id bytes as a parameter so the layout can be stated for any client id,
and `rust_std_client` recovers the source's payload.  `client_id.len()
as i16` followed by `to_be_bytes` yields the two big-endian bytes of the
length mod 2^16, which is `i16_toBeBytes` applied to the length. -/
def build_api_versions_request (correlation_id : Int) (client_id : List Nat) : List Nat :=
  i16_toBeBytes 18 ++ i16_toBeBytes 3 ++ i32_toBeBytes correlation_id
    ++ i16_toBeBytes (client_id.length : Int) ++ client_id ++ [0]

/-- The request payload built by `KafkaClient::send_metadata_request`
(src/main.rs:241-285): api key 3, api version 9, correlation id, 2-byte
length-prefixed client id, compact topics array (varint of count+1, each
topic a varint of length+1 followed by its bytes; the `as u32` casts are
the `% 2^32`), four false boolean flags, and one empty tagged-fields
byte.  As above the source's hard-coded client id is a parameter here. -/
def build_metadata_request (correlation_id : Int) (client_id : List Nat)
    (topics : List (List Nat)) : List Nat :=
  i16_toBeBytes 3 ++ i16_toBeBytes 9 ++ i32_toBeBytes correlation_id
    ++ i16_toBeBytes (client_id.length : Int) ++ client_id
    ++ write_varint ((topics.length + 1) % 4294967296)
    ++ (topics.map (fun t => write_varint ((t.length + 1) % 4294967296) ++ t)).flatten
    ++ [0, 0, 0, 0] ++ [0]

/-- One capability entry, given as the raw wire bytes of its three
big-endian `i16` fields, to be followed on the wire by an empty
tagged-field varint (the single byte `0`). -/
def entryBytes (e : (Nat × Nat) × (Nat × Nat) × (Nat × Nat)) : List Nat :=
  [e.1.1, e.1.2, e.2.1.1, e.2.1.2, e.2.2.1, e.2.2.2, 0]

/-- The wire bytes of a sequence of capability entries. -/
def entriesBytes (entries : List ((Nat × Nat) × (Nat × Nat) × (Nat × Nat))) : List Nat :=
  (entries.map entryBytes).flatten

/-- The decoded form of one capability entry: api key, min version and
max version as signed 16-bit values. -/
def decodeEntry (e : (Nat × Nat) × (Nat × Nat) × (Nat × Nat)) : Int × Int × Int :=
  (i16_ofBytes e.1.1 e.1.2, i16_ofBytes e.2.1.1 e.2.1.2, i16_ofBytes e.2.2.1 e.2.2.2)

/-- Disjoint bitwise-or is addition: bits of `a` lie strictly below
position `n`, bits of `b * 2 ^ n` at or above it. -/
theorem lor_mul_two_pow : ∀ (n a b : Nat), a < 2 ^ n → a ||| b * 2 ^ n = a + b * 2 ^ n := by
  intro n
  induction n with
  | zero =>
    intro a b h
    have : a = 0 := by omega
    subst this
    simp
  | succ n ih =>
    intro a b h
    have hb : b * 2 ^ (n + 1) = Nat.bit false (b * 2 ^ n) := by
      simp [Nat.bit_val]
      ring
    have ha : a = Nat.bit a.bodd a.div2 := (Nat.bit_decomp a).symm
    have hd2 : a.div2 = a / 2 := Nat.div2_val a
    have hd : a.div2 < 2 ^ n := by
      rw [hd2]
      omega
    calc a ||| b * 2 ^ (n + 1)
        = Nat.bit a.bodd a.div2 ||| Nat.bit false (b * 2 ^ n) := by rw [← ha, ← hb]
      _ = Nat.bit (a.bodd || false) (a.div2 ||| b * 2 ^ n) := Nat.lor_bit _ _ _ _
      _ = Nat.bit a.bodd (a.div2 + b * 2 ^ n) := by rw [Bool.or_false, ih _ _ hd]
      _ = a + b * 2 ^ (n + 1) := by
          rw [Nat.bit_val]
          conv_rhs => rw [ha, Nat.bit_val]
          rw [hd2]
          ring

/-- Masking with `0x7F` keeps the low seven bits. -/
theorem and_127_eq_mod (n : Nat) : n &&& 127 = n % 128 := by
  have h := Nat.and_pow_two_sub_one_eq_mod n 7
  norm_num at h
  exact h

/-- A value below 128 has a clear continuation bit. -/
theorem and_128_of_lt {v : Nat} (h : v < 128) : v &&& 128 = 0 := by
  have h2 : (128 : Nat) = 2 ^ 7 := by norm_num
  rw [h2, Nat.and_two_pow, Nat.testBit_eq_false_of_lt (by norm_num [h2] at h ⊢; omega)]
  simp

/-- Adding 128 to a value below 128 sets exactly the continuation bit. -/
theorem and_128_add_128 {a : Nat} (h : a < 128) : (a + 128) &&& 128 = 128 := by
  have h2 : (128 : Nat) = 2 ^ 7 := by norm_num
  rw [h2, Nat.and_two_pow]
  have ht : (a + 2 ^ 7).testBit 7 = true := by
    rw [Nat.testBit_to_div_mod]
    have : (a + 2 ^ 7) / 2 ^ 7 = 1 := by
      norm_num
      omega
    simp [this]
    omega
  rw [ht]
  simp

/-- Unfolding of `write_varint` for a one-byte value. -/
theorem write_varint_lt {v : Nat} (h : v < 128) : write_varint v = [v % 128] := by
  rw [write_varint]
  simp [Nat.div_eq_of_lt h]

/-- Unfolding of `write_varint` for a multi-byte value. -/
theorem write_varint_ge {v : Nat} (h : 128 ≤ v) :
    write_varint v = (v % 128 + 128) :: write_varint (v / 128) := by
  rw [write_varint]
  have : v / 128 ≠ 0 := by
    have := Nat.div_le_div_right (c := 128) h
    simp at this
    omega
  simp [this]

/-- An encoded varint is never empty. -/
theorem write_varint_length_pos (v : Nat) : 0 < (write_varint v).length := by
  rw [write_varint]
  split <;> simp

/-- Decoding an encoded value in front of arbitrary trailing bytes, with
the accumulator holding bits strictly below the current shift: the loop
returns the accumulated value and consumes exactly the encoding. -/
theorem read_varint_loop_encode : ∀ (v k result : Nat) (rest : List Nat),
    v * 2 ^ (7 * k) < 4294967296 → result < 2 ^ (7 * k) →
    read_varint_loop (write_varint v ++ rest) result (7 * k)
      = .ok (result + v * 2 ^ (7 * k), (write_varint v).length) := by
  intro v
  induction v using Nat.strong_induction_on with
  | _ v ih =>
    intro k result rest hv hr
    by_cases h128 : v < 128
    · rw [write_varint_lt h128, Nat.mod_eq_of_lt h128]
      show read_varint_loop (v :: rest) result (7 * k) = _
      rw [read_varint_loop]
      have e1 : (v &&& 127) <<< (7 * k) % 4294967296 = v * 2 ^ (7 * k) := by
        rw [and_127_eq_mod, Nat.mod_eq_of_lt h128, Nat.shiftLeft_eq,
          Nat.mod_eq_of_lt hv]
      rw [e1, lor_mul_two_pow _ _ _ hr, if_pos (and_128_of_lt h128)]
      simp
    · push_neg at h128
      rw [write_varint_ge h128]
      show read_varint_loop ((v % 128 + 128) :: (write_varint (v / 128) ++ rest))
        result (7 * k) = _
      rw [read_varint_loop]
      have hm : v % 128 < 128 := Nat.mod_lt _ (by omega)
      have e0 : (v % 128 + 128) &&& 127 = v % 128 := by
        rw [and_127_eq_mod]
        omega
      have e1 : ((v % 128 + 128) &&& 127) <<< (7 * k) % 4294967296
          = v % 128 * 2 ^ (7 * k) := by
        rw [e0, Nat.shiftLeft_eq, Nat.mod_eq_of_lt]
        calc v % 128 * 2 ^ (7 * k) ≤ v * 2 ^ (7 * k) :=
              Nat.mul_le_mul_right _ (Nat.mod_le _ _)
          _ < 4294967296 := hv
      have e2 : (v % 128 + 128) &&& 128 = 128 := and_128_add_128 hm
      have hk : 7 * k + 7 < 32 := by
        have hp : 2 ^ (7 * k + 7) ≤ v * 2 ^ (7 * k) := by
          rw [pow_add]
          calc 2 ^ (7 * k) * 2 ^ 7 = 2 ^ 7 * 2 ^ (7 * k) := by ring
            _ ≤ v * 2 ^ (7 * k) := Nat.mul_le_mul_right _ (by norm_num; omega)
        have : 2 ^ (7 * k + 7) < 4294967296 := lt_of_le_of_lt hp hv
        have h32 : (4294967296 : Nat) = 2 ^ 32 := by norm_num
        rw [h32] at this
        exact (Nat.pow_lt_pow_iff_right (by norm_num)).mp this
      rw [e1, lor_mul_two_pow _ _ _ hr, if_neg (by simp [e2]), if_neg (by omega)]
      have hrec := ih (v / 128) (Nat.div_lt_self (by omega) (by norm_num)) (k + 1)
        (result + v % 128 * 2 ^ (7 * k)) rest
        (by
          have : v / 128 * 2 ^ (7 * (k + 1)) ≤ v * 2 ^ (7 * k) := by
            have : v / 128 * 2 ^ (7 * (k + 1)) = v / 128 * 128 * 2 ^ (7 * k) := by
              rw [Nat.mul_succ, pow_add]
              ring_nf
            rw [this]
            exact Nat.mul_le_mul_right _ (by omega)
          omega)
        (by
          have : result + v % 128 * 2 ^ (7 * k) < 128 * 2 ^ (7 * k) := by
            have := Nat.mul_le_mul_right (2 ^ (7 * k)) (show v % 128 ≤ 127 by omega)
            omega
          calc result + v % 128 * 2 ^ (7 * k) < 128 * 2 ^ (7 * k) := this
            _ = 2 ^ (7 * (k + 1)) := by rw [Nat.mul_succ, pow_add]; ring)
      have hshift : 7 * k + 7 = 7 * (k + 1) := by ring
      rw [hshift, hrec]
      have hval : result + v % 128 * 2 ^ (7 * k) + v / 128 * 2 ^ (7 * (k + 1))
          = result + v * 2 ^ (7 * k) := by
        have : v / 128 * 2 ^ (7 * (k + 1)) = v / 128 * 128 * 2 ^ (7 * k) := by
          rw [Nat.mul_succ, pow_add]
          ring_nf
        rw [this]
        have hdm : v % 128 + v / 128 * 128 = v := by omega
        calc result + v % 128 * 2 ^ (7 * k) + v / 128 * 128 * 2 ^ (7 * k)
            = result + (v % 128 + v / 128 * 128) * 2 ^ (7 * k) := by ring
          _ = result + v * 2 ^ (7 * k) := by rw [hdm]
      rw [hval]
      simp [List.length_cons]

/-- On a buffer of continuation-bit-set bytes short enough that the
shift guard is never reached, the loop runs off the end of the buffer. -/
theorem read_varint_loop_truncated : ∀ (l : List Nat) (result shift : Nat),
    (∀ b ∈ l, b &&& 128 ≠ 0) → shift + 7 * l.length < 32 →
    read_varint_loop l result shift
      = .error (.invalidResponse "Unexpected end of varint") := by
  intro l
  induction l with
  | nil => intro result shift _ _; rfl
  | cons b rest ih =>
    intro result shift hc hs
    rw [read_varint_loop]
    have hb : b &&& 128 ≠ 0 := hc b (by simp)
    rw [if_neg hb, if_neg (by simp [List.length_cons] at hs; omega)]
    rw [ih _ (shift + 7) (fun x hx => hc x (by simp [hx]))
      (by simp [List.length_cons] at hs; omega)]

/-- C1: the claim states that both response parsers bounds-check every
multi-byte read so that a short payload yields a typed result or error
and the panic branch is unreachable.  The metadata parser does not: on a
metadata frame of length 3 the unchecked reads of payload bytes 0..3 hit
an out-of-bounds index (`none`), while the api-versions parser on the
same 3-byte payload returns the typed `InvalidResponse` error as claimed. -/
theorem metadata_parser_unchecked_index :
    recv_metadata [0, 0, 0, 3, 1, 2, 3] 1 = none
    ∧ read_api_versions_response [1, 2, 3] 1
        = some (.error (.invalidResponse "Response too short")) :=
  ⟨rfl, rfl⟩

/-- C3: the claim states that every frame receive validates the 4-byte
length against (0, 1 MiB].  Only the api-versions receive does: on a
frame announcing 1,048,577 bytes the api-versions receive fails with the
frame-size error, while the metadata receive performs no validation and
goes on to read 1,048,577 bytes from the transport (here: an io error,
since the stream has no further bytes). -/
theorem metadata_receive_no_frame_validation :
    recv_metadata [0, 16, 0, 1] 1 = some (.error .ioError)
    ∧ recv_api_versions [0, 16, 0, 1] 1
        = some (.error (.protocolError "Invalid response size: 1048577")) :=
  ⟨rfl, rfl⟩

/-- C2 counterexample: a capability-discovery response announcing n = 4
entries (compact array varint 5, read at offset 6 as the first conjunct
shows) followed by four complete entries is decoded to only three
entries, so the parser does not decode exactly n entries. -/
theorem api_versions_four_entries_cex :
    read_varint [0, 0, 0, 1, 0, 0, 5,
      0, 1, 0, 0, 0, 9, 0, 0, 2, 0, 0, 0, 9, 0, 0, 3, 0, 0, 0, 9, 0, 0, 4, 0, 0, 0, 9, 0] 6
      = .ok (5, 7)
    ∧ read_api_versions_response [0, 0, 0, 1, 0, 0, 5,
        0, 1, 0, 0, 0, 9, 0, 0, 2, 0, 0, 0, 9, 0, 0, 3, 0, 0, 0, 9, 0, 0, 4, 0, 0, 0, 9, 0] 1
      = some (.ok [(1, 0, 9), (2, 0, 9), (3, 0, 9)]) :=
  ⟨rfl, rfl⟩

/-- The entry loop on a region of the buffer that encodes a sequence of
entries: starting right after a prefix `pre`, with at least `k` encoded
entries available, exactly `k` iterations succeed and return the first
`k` decoded entries. -/
theorem parse_entries_encoded :
    ∀ (k : Nat) (entries : List ((Nat × Nat) × (Nat × Nat) × (Nat × Nat)))
      (pre rest : List Nat), k ≤ entries.length →
      parse_entries (pre ++ entriesBytes entries ++ rest) pre.length k
        = some (.ok ((entries.take k).map decodeEntry)) := by
  intro k
  induction k with
  | zero =>
    intro entries pre rest _
    simp [parse_entries]
  | succ k ih =>
    intro entries pre rest h
    match entries with
    | [] => simp at h
    | e :: tail =>
      obtain ⟨⟨a, b⟩, ⟨c, d⟩, ⟨f, g⟩⟩ := e
      have hsplit : entriesBytes (((a, b), (c, d), (f, g)) :: tail)
          = entryBytes ((a, b), (c, d), (f, g)) ++ entriesBytes tail := by
        simp [entriesBytes]
      rw [hsplit]
      have hq : pre ++ (entryBytes ((a, b), (c, d), (f, g)) ++ entriesBytes tail) ++ rest
          = pre ++ (a :: b :: c :: d :: f :: g :: 0 :: (entriesBytes tail ++ rest)) := by
        simp [entryBytes]
      rw [hq]
      rw [parse_entries]
      have hlen : (pre ++ (a :: b :: c :: d :: f :: g :: 0 :: (entriesBytes tail ++ rest))).length
          = pre.length + 7 + (entriesBytes tail).length + rest.length := by
        simp
        omega
      rw [if_neg (by omega)]
      have gj : ∀ (j : Nat),
          (pre ++ (a :: b :: c :: d :: f :: g :: 0 :: (entriesBytes tail ++ rest)))[pre.length + j]?
            = (a :: b :: c :: d :: f :: g :: 0 :: (entriesBytes tail ++ rest))[j]? := by
        intro j
        rw [List.getElem?_append_right (by omega)]
        congr 1
        omega
      have g0 : (pre ++ (a :: b :: c :: d :: f :: g :: 0 :: (entriesBytes tail ++ rest)))[pre.length]?
          = some a := by
        have h0 := gj 0
        rw [Nat.add_zero] at h0
        rw [h0, List.getElem?_cons_zero]
      have g1 : (pre ++ (a :: b :: c :: d :: f :: g :: 0 :: (entriesBytes tail ++ rest)))[pre.length + 1]?
          = some b := by rw [gj 1]; simp
      have g2 : (pre ++ (a :: b :: c :: d :: f :: g :: 0 :: (entriesBytes tail ++ rest)))[pre.length + 2]?
          = some c := by rw [gj 2]; simp
      have g3 : (pre ++ (a :: b :: c :: d :: f :: g :: 0 :: (entriesBytes tail ++ rest)))[pre.length + 3]?
          = some d := by rw [gj 3]; simp
      have g4 : (pre ++ (a :: b :: c :: d :: f :: g :: 0 :: (entriesBytes tail ++ rest)))[pre.length + 4]?
          = some f := by rw [gj 4]; simp
      have g5 : (pre ++ (a :: b :: c :: d :: f :: g :: 0 :: (entriesBytes tail ++ rest)))[pre.length + 5]?
          = some g := by rw [gj 5]; simp
      rw [g0, g1, g2, g3, g4, g5]
      simp only []
      have hvar : read_varint (pre ++ (a :: b :: c :: d :: f :: g :: 0 :: (entriesBytes tail ++ rest)))
          (pre.length + 6) = .ok (0, pre.length + 6 + 1) := by
        rw [read_varint]
        have hd : (pre ++ (a :: b :: c :: d :: f :: g :: 0 :: (entriesBytes tail ++ rest))).drop
            (pre.length + 6) = 0 :: (entriesBytes tail ++ rest) := by
          have hre : pre ++ (a :: b :: c :: d :: f :: g :: 0 :: (entriesBytes tail ++ rest))
              = (pre ++ [a, b, c, d, f, g]) ++ (0 :: (entriesBytes tail ++ rest)) := by
            simp
          rw [hre, List.drop_left' (by simp)]
        rw [hd, read_varint_loop]
        norm_num
      rw [hvar]
      simp only []
      have hrec : parse_entries (pre ++ (a :: b :: c :: d :: f :: g :: 0 :: (entriesBytes tail ++ rest)))
          (pre.length + 6 + 1) k = some (.ok ((tail.take k).map decodeEntry)) := by
        have hre : pre ++ (a :: b :: c :: d :: f :: g :: 0 :: (entriesBytes tail ++ rest))
            = (pre ++ [a, b, c, d, f, g, 0]) ++ entriesBytes tail ++ rest := by
          simp
        have hlen7 : pre.length + 6 + 1 = (pre ++ [a, b, c, d, f, g, 0]).length := by
          simp
        rw [hre, hlen7, ih tail _ rest (by simp at h; omega)]
      rw [hrec]
      simp [decodeEntry, List.take_succ_cons]

/-- C2 (amended): with the expected correlation id and error code 0, the
parser decodes one varint v and sets n = v - 1; a varint of 0 (n = -1,
absent array) yields the empty result set regardless of what follows,
and otherwise the parser decodes exactly min(3, n) entries — the source
caps parsing at the first three entries — each {api code: int16, min
version: int16, max version: int16} followed by one varint for that
entry's tagged-field section, consumed and discarded to keep the cursor
aligned for the next entry. -/
theorem api_versions_compact_array_decode :
    (∀ (c0 c1 c2 c3 : Nat) (rest : List Nat),
      read_api_versions_response ([c0, c1, c2, c3, 0, 0, 0] ++ rest) (i32_ofBytes c0 c1 c2 c3)
        = some (.ok []))
    ∧ (∀ (c0 c1 c2 c3 : Nat) (entries : List ((Nat × Nat) × (Nat × Nat) × (Nat × Nat))),
      entries.length + 1 < 2147483648 →
      read_api_versions_response
          ([c0, c1, c2, c3] ++ [0, 0] ++ write_varint (entries.length + 1) ++ entriesBytes entries)
          (i32_ofBytes c0 c1 c2 c3)
        = some (.ok ((entries.take 3).map decodeEntry))) := by
  constructor
  · intro c0 c1 c2 c3 rest
    rw [read_api_versions_response, if_neg (by simp)]
    simp only [List.cons_append, List.nil_append]
    have g0 : (c0 :: c1 :: c2 :: c3 :: 0 :: 0 :: 0 :: rest)[0]? = some c0 := rfl
    have g1 : (c0 :: c1 :: c2 :: c3 :: 0 :: 0 :: 0 :: rest)[1]? = some c1 := rfl
    have g2 : (c0 :: c1 :: c2 :: c3 :: 0 :: 0 :: 0 :: rest)[2]? = some c2 := rfl
    have g3 : (c0 :: c1 :: c2 :: c3 :: 0 :: 0 :: 0 :: rest)[3]? = some c3 := by simp
    have g4 : (c0 :: c1 :: c2 :: c3 :: 0 :: 0 :: 0 :: rest)[4]? = some 0 := by simp
    have g5 : (c0 :: c1 :: c2 :: c3 :: 0 :: 0 :: 0 :: rest)[5]? = some 0 := by simp
    rw [g0, g1, g2, g3]
    simp only []
    rw [if_neg (by simp), if_neg (by simp), g4, g5]
    simp only []
    rw [if_neg (by norm_num [i16_ofBytes]), if_neg (by simp)]
    have hvar : read_varint (c0 :: c1 :: c2 :: c3 :: 0 :: 0 :: 0 :: rest) 6
        = .ok (0, 6 + 1) := by
      rw [read_varint]
      have hd : (c0 :: c1 :: c2 :: c3 :: 0 :: 0 :: 0 :: rest).drop 6 = 0 :: rest := rfl
      rw [hd, read_varint_loop]
      norm_num
    rw [hvar]
    simp only []
    have harr : i32_ofU32 ((0 + 4294967295) % 4294967296) = -1 := by
      norm_num [i32_ofU32]
    rw [harr]
    rfl
  · intro c0 c1 c2 c3 entries hm
    rw [read_api_versions_response, if_neg (by simp)]
    simp only [List.cons_append, List.nil_append]
    have hwl := write_varint_length_pos (entries.length + 1)
    have g0 : (c0 :: c1 :: c2 :: c3 :: 0 :: 0 ::
        (write_varint (entries.length + 1) ++ entriesBytes entries))[0]? = some c0 := rfl
    have g1 : (c0 :: c1 :: c2 :: c3 :: 0 :: 0 ::
        (write_varint (entries.length + 1) ++ entriesBytes entries))[1]? = some c1 := rfl
    have g2 : (c0 :: c1 :: c2 :: c3 :: 0 :: 0 ::
        (write_varint (entries.length + 1) ++ entriesBytes entries))[2]? = some c2 := rfl
    have g3 : (c0 :: c1 :: c2 :: c3 :: 0 :: 0 ::
        (write_varint (entries.length + 1) ++ entriesBytes entries))[3]? = some c3 := by simp
    have g4 : (c0 :: c1 :: c2 :: c3 :: 0 :: 0 ::
        (write_varint (entries.length + 1) ++ entriesBytes entries))[4]? = some 0 := by simp
    have g5 : (c0 :: c1 :: c2 :: c3 :: 0 :: 0 ::
        (write_varint (entries.length + 1) ++ entriesBytes entries))[5]? = some 0 := by simp
    rw [g0, g1, g2, g3]
    simp only []
    rw [if_neg (by simp), if_neg (by simp), g4, g5]
    simp only []
    rw [if_neg (by norm_num [i16_ofBytes]), if_neg (by simp [List.length_cons]; omega)]
    have hvar : read_varint (c0 :: c1 :: c2 :: c3 :: 0 :: 0 ::
        (write_varint (entries.length + 1) ++ entriesBytes entries)) 6
        = .ok (entries.length + 1, 6 + (write_varint (entries.length + 1)).length) := by
      rw [read_varint]
      have hd : (c0 :: c1 :: c2 :: c3 :: 0 :: 0 ::
          (write_varint (entries.length + 1) ++ entriesBytes entries)).drop 6
          = write_varint (entries.length + 1) ++ entriesBytes entries := rfl
      rw [hd]
      rw [read_varint_loop_encode (entries.length + 1) 0 0 (entriesBytes entries)
        (by norm_num; omega) (by norm_num)]
      norm_num
    rw [hvar]
    simp only []
    have harr : i32_ofU32 ((entries.length + 1 + 4294967295) % 4294967296)
        = (entries.length : Int) := by
      have h1 : (entries.length + 1 + 4294967295) % 4294967296 = entries.length := by
        omega
      rw [h1, i32_ofU32]
      have h2 : entries.length % 4294967296 = entries.length := by omega
      rw [h2, if_pos (by omega)]
    rw [harr]
    have hmin : (min 3 (entries.length : Int)).toNat = min 3 entries.length := by
      rcases le_total (3 : Int) (entries.length : Int) with h3 | h3
      · rw [min_eq_left h3, min_eq_left (by exact_mod_cast h3)]
        rfl
      · rw [min_eq_right h3, min_eq_right (by exact_mod_cast h3)]
        simp
    rw [hmin]
    have hdata : c0 :: c1 :: c2 :: c3 :: 0 :: 0 ::
        (write_varint (entries.length + 1) ++ entriesBytes entries)
        = ([c0, c1, c2, c3, 0, 0] ++ write_varint (entries.length + 1))
          ++ entriesBytes entries ++ [] := by
      simp
    have hoff : 6 + (write_varint (entries.length + 1)).length
        = ([c0, c1, c2, c3, 0, 0] ++ write_varint (entries.length + 1)).length := by
      simp
      omega
    rw [hdata, hoff, parse_entries_encoded (min 3 entries.length) entries _ []
      (Nat.min_le_right _ _)]
    have htake : entries.take (min 3 entries.length) = entries.take 3 := by
      rw [← List.take_take, List.take_length]
    rw [htake]

/-- C2 witness: one concrete entry, decoded through the amended theorem. -/
theorem api_versions_compact_array_decode_witness :
    List.length [(((0 : Nat), (1 : Nat)), ((0 : Nat), (0 : Nat)), ((0 : Nat), (9 : Nat)))] + 1
        < 2147483648
    ∧ read_api_versions_response
        ([0, 0, 0, 1] ++ [0, 0]
          ++ write_varint (List.length
              [(((0 : Nat), (1 : Nat)), ((0 : Nat), (0 : Nat)), ((0 : Nat), (9 : Nat)))] + 1)
          ++ entriesBytes [(((0 : Nat), (1 : Nat)), ((0 : Nat), (0 : Nat)), ((0 : Nat), (9 : Nat)))])
        (i32_ofBytes 0 0 0 1)
      = some (.ok ((List.take 3
          [(((0 : Nat), (1 : Nat)), ((0 : Nat), (0 : Nat)), ((0 : Nat), (9 : Nat)))]).map
            decodeEntry)) :=
  ⟨by norm_num, api_versions_compact_array_decode.2 0 0 0 1
    [(((0 : Nat), (1 : Nat)), ((0 : Nat), (0 : Nat)), ((0 : Nat), (9 : Nat)))] (by norm_num)⟩

/-- C4: for every unsigned 32-bit value v, decoding the bytes produced by
`write_varint v` from cursor 0 succeeds with the value v and advances the
cursor by exactly the length of the encoding. -/
theorem varint_roundtrip (v : Nat) (h : v < 4294967296) :
    read_varint (write_varint v) 0 = .ok (v, (write_varint v).length) := by
  have h0 := read_varint_loop_encode v 0 0 [] (by simpa using h) (by norm_num)
  simp only [List.append_nil, Nat.mul_zero, pow_zero, Nat.mul_one, Nat.zero_add] at h0
  rw [read_varint]
  simp only [List.drop_zero]
  rw [h0]
  simp

/-- C4 witness: the round trip at v = 300. -/
theorem varint_roundtrip_witness :
    300 < 4294967296
    ∧ read_varint (write_varint 300) 0 = .ok (300, (write_varint 300).length) :=
  ⟨by norm_num, varint_roundtrip 300 (by norm_num)⟩

/-- C5: a payload whose first four bytes decode to a correlation id
different from the expected one makes both parsers fail with their
correlation-mismatch error; the parsers are pure functions of the
payload, so nothing of the caller's state is touched — the error is the
entire result, whatever the rest of the payload holds. -/
theorem correlation_mismatch_rejected (b0 b1 b2 b3 : Nat) (rest : List Nat) (expected : Int)
    (h : i32_ofBytes b0 b1 b2 b3 ≠ expected) :
    read_api_versions_response ([b0, b1, b2, b3] ++ rest) expected
      = some (.error (.protocolError ("Correlation ID mismatch: expected "
          ++ toString expected ++ ", got " ++ toString (i32_ofBytes b0 b1 b2 b3))))
    ∧ read_metadata_response ([b0, b1, b2, b3] ++ rest) expected
      = some (.error (.protocolError "Correlation ID mismatch")) := by
  constructor
  · rw [read_api_versions_response, if_neg (by simp)]
    simp only [List.cons_append, List.nil_append]
    have g0 : (b0 :: b1 :: b2 :: b3 :: rest)[0]? = some b0 := rfl
    have g1 : (b0 :: b1 :: b2 :: b3 :: rest)[1]? = some b1 := rfl
    have g2 : (b0 :: b1 :: b2 :: b3 :: rest)[2]? = some b2 := rfl
    have g3 : (b0 :: b1 :: b2 :: b3 :: rest)[3]? = some b3 := by simp
    rw [g0, g1, g2, g3]
    simp only []
    rw [if_pos h]
  · rw [read_metadata_response]
    simp only [List.cons_append, List.nil_append]
    have g0 : (b0 :: b1 :: b2 :: b3 :: rest)[0]? = some b0 := rfl
    have g1 : (b0 :: b1 :: b2 :: b3 :: rest)[1]? = some b1 := rfl
    have g2 : (b0 :: b1 :: b2 :: b3 :: rest)[2]? = some b2 := rfl
    have g3 : (b0 :: b1 :: b2 :: b3 :: rest)[3]? = some b3 := by simp
    rw [g0, g1, g2, g3]
    simp only []
    rw [if_pos h]

/-- C5 witness: a response carrying correlation id 99 fed to parsers
expecting id 1 (the specification's scenario). -/
theorem correlation_mismatch_rejected_witness :
    i32_ofBytes 0 0 0 99 ≠ 1
    ∧ (read_api_versions_response ([0, 0, 0, 99] ++ []) 1
        = some (.error (.protocolError ("Correlation ID mismatch: expected "
            ++ toString (1 : Int) ++ ", got " ++ toString (i32_ofBytes 0 0 0 99))))
      ∧ read_metadata_response ([0, 0, 0, 99] ++ []) 1
        = some (.error (.protocolError "Correlation ID mismatch"))) :=
  ⟨by decide, correlation_mismatch_rejected 0 0 0 99 [] 1 (by decide)⟩

/-- C6: a capability-discovery response with the expected correlation id
and a non-zero error code c fails with the server-error message carrying
c verbatim; the conclusion holds for every continuation `rest` of the
payload, so no byte past the error code influences the result. -/
theorem server_error_propagated (b0 b1 b2 b3 e0 e1 : Nat) (rest : List Nat) (c : Int)
    (hc : i16_ofBytes e0 e1 = c) (h0 : c ≠ 0) :
    read_api_versions_response ([b0, b1, b2, b3, e0, e1] ++ rest) (i32_ofBytes b0 b1 b2 b3)
      = some (.error (.protocolError ("Kafka error code: " ++ toString c))) := by
  rw [read_api_versions_response, if_neg (by simp)]
  simp only [List.cons_append, List.nil_append]
  have g0 : (b0 :: b1 :: b2 :: b3 :: e0 :: e1 :: rest)[0]? = some b0 := rfl
  have g1 : (b0 :: b1 :: b2 :: b3 :: e0 :: e1 :: rest)[1]? = some b1 := rfl
  have g2 : (b0 :: b1 :: b2 :: b3 :: e0 :: e1 :: rest)[2]? = some b2 := rfl
  have g3 : (b0 :: b1 :: b2 :: b3 :: e0 :: e1 :: rest)[3]? = some b3 := by simp
  have g4 : (b0 :: b1 :: b2 :: b3 :: e0 :: e1 :: rest)[4]? = some e0 := by simp
  have g5 : (b0 :: b1 :: b2 :: b3 :: e0 :: e1 :: rest)[5]? = some e1 := by simp
  rw [g0, g1, g2, g3]
  simp only []
  rw [if_neg (by simp), if_neg (by simp), g4, g5]
  simp only []
  rw [hc, if_pos h0]

/-- C6 witness: error code 2 with a non-empty array body behind it (the
specification's scenario: the body is never parsed). -/
theorem server_error_propagated_witness :
    i16_ofBytes 0 2 = 2 ∧ (2 : Int) ≠ 0
    ∧ read_api_versions_response ([0, 0, 0, 1, 0, 2] ++ [99, 99]) (i32_ofBytes 0 0 0 1)
      = some (.error (.protocolError ("Kafka error code: " ++ toString (2 : Int)))) :=
  ⟨by decide, by decide, server_error_propagated 0 0 0 1 0 2 [99, 99] 2 (by decide) (by decide)⟩

/-- C7: the capability-discovery request payload is api key 18, version
3, the big-endian correlation id, the 2-byte client id length, the
client id bytes and a trailing empty tagged-fields byte — and with
client id "k" (0x6B) and correlation id 7 it is exactly the twelve bytes
00 12 00 03 00 00 00 07 00 01 6B 00. -/
theorem api_versions_request_layout :
    (∀ (correlation_id : Int) (client_id : List Nat), client_id.length ≤ 65535 →
      build_api_versions_request correlation_id client_id
        = [0, 18, 0, 3] ++ i32_toBeBytes correlation_id
          ++ [client_id.length / 256, client_id.length % 256] ++ client_id ++ [0])
    ∧ build_api_versions_request 7 [107] = [0, 18, 0, 3, 0, 0, 0, 7, 0, 1, 107, 0] := by
  constructor
  · intro correlation_id client_id h
    rw [build_api_versions_request]
    have e18 : i16_toBeBytes 18 = [0, 18] := rfl
    have e3 : i16_toBeBytes 3 = [0, 3] := rfl
    have elen : i16_toBeBytes (client_id.length : Int)
        = [client_id.length / 256, client_id.length % 256] := by
      rw [i16_toBeBytes]
      have hu : ((client_id.length : Int) % 65536).toNat = client_id.length := by omega
      rw [hu]
    rw [e18, e3, elen]
    simp
  · rfl

/-- C7 witness: the layout at the source's own client id. -/
theorem api_versions_request_layout_witness :
    rust_std_client.length ≤ 65535
    ∧ build_api_versions_request 1 rust_std_client
      = [0, 18, 0, 3] ++ i32_toBeBytes 1
        ++ [rust_std_client.length / 256, rust_std_client.length % 256]
        ++ rust_std_client ++ [0] :=
  ⟨by decide, api_versions_request_layout.1 1 rust_std_client (by decide)⟩

/-- C8: the metadata-lookup request payload is api key 3, version 9, the
big-endian correlation id, the 2-byte client id length and the client id
bytes, the compact topics array (varint of count+1, then per topic a
varint of length+1 followed by the name bytes), four false flag bytes
and a trailing empty tagged-fields byte. -/
theorem metadata_request_layout (correlation_id : Int) (client_id : List Nat)
    (topics : List (List Nat)) (hc : client_id.length ≤ 65535)
    (ht : topics.length + 1 < 4294967296)
    (he : ∀ t ∈ topics, t.length + 1 < 4294967296) :
    build_metadata_request correlation_id client_id topics
      = [0, 3, 0, 9] ++ i32_toBeBytes correlation_id
        ++ [client_id.length / 256, client_id.length % 256] ++ client_id
        ++ write_varint (topics.length + 1)
        ++ (topics.map (fun t => write_varint (t.length + 1) ++ t)).flatten
        ++ [0, 0, 0, 0, 0] := by
  rw [build_metadata_request]
  have e3 : i16_toBeBytes 3 = [0, 3] := rfl
  have e9 : i16_toBeBytes 9 = [0, 9] := rfl
  have elen : i16_toBeBytes (client_id.length : Int)
      = [client_id.length / 256, client_id.length % 256] := by
    rw [i16_toBeBytes]
    have hu : ((client_id.length : Int) % 65536).toNat = client_id.length := by omega
    rw [hu]
  have etop : (topics.length + 1) % 4294967296 = topics.length + 1 :=
    Nat.mod_eq_of_lt ht
  have emap : topics.map (fun t => write_varint ((t.length + 1) % 4294967296) ++ t)
      = topics.map (fun t => write_varint (t.length + 1) ++ t) := by
    apply List.map_congr_left
    intro t htt
    rw [Nat.mod_eq_of_lt (he t htt)]
  rw [e3, e9, elen, etop, emap]
  simp

/-- C8 witness: the layout at correlation id 2, client id "k", one
one-letter topic "a". -/
theorem metadata_request_layout_witness :
    ([(107 : Nat)].length ≤ 65535 ∧ [[(97 : Nat)]].length + 1 < 4294967296
      ∧ ∀ t ∈ [[(97 : Nat)]], t.length + 1 < 4294967296)
    ∧ build_metadata_request 2 [107] [[97]]
      = [0, 3, 0, 9] ++ i32_toBeBytes 2
        ++ [([(107 : Nat)].length) / 256, ([(107 : Nat)].length) % 256] ++ [107]
        ++ write_varint ([[(97 : Nat)]].length + 1)
        ++ ([[(97 : Nat)]].map (fun t => write_varint (t.length + 1) ++ t)).flatten
        ++ [0, 0, 0, 0, 0] :=
  ⟨⟨by decide, by decide, by decide⟩,
    metadata_request_layout 2 [107] [[97]] (by decide) (by decide) (by decide)⟩

/-- C9: a varint whose buffer ends before a terminating byte (high bit
clear) is found fails with the truncated-input error — in general for
any all-continuation buffer of at most 4 bytes read from cursor 0 (with
five or more such bytes the overflow guard of C10 fires first), and in
particular for the one-byte buffer 0x80. -/
theorem varint_truncated_input :
    (∀ data : List Nat, (∀ b ∈ data, b &&& 128 ≠ 0) → data.length ≤ 4 →
      read_varint data 0 = .error (.invalidResponse "Unexpected end of varint"))
    ∧ read_varint [128] 0 = .error (.invalidResponse "Unexpected end of varint") := by
  constructor
  · intro data hc hl
    rw [read_varint]
    simp only [List.drop_zero]
    rw [read_varint_loop_truncated data 0 0 hc (by omega)]
  · rfl

/-- C9 witness: the general statement applied to the buffer [0x80]. -/
theorem varint_truncated_input_witness :
    (∀ b ∈ [(128 : Nat)], b &&& 128 ≠ 0) ∧ [(128 : Nat)].length ≤ 4
    ∧ read_varint [128] 0 = .error (.invalidResponse "Unexpected end of varint") :=
  ⟨by decide, by decide, varint_truncated_input.1 [128] (by decide) (by decide)⟩

/-- C10: five continuation-bit-set bytes already exceed what a 32-bit
varint may use, so the decoder fails with the overflow error before a
sixth byte is even consumed — hence more than 5 bytes are never
consumed, and six 0x80 bytes fail with the overflow error. -/
theorem varint_overflow_guard (b0 b1 b2 b3 b4 : Nat) (rest : List Nat)
    (h0 : b0 &&& 128 ≠ 0) (h1 : b1 &&& 128 ≠ 0) (h2 : b2 &&& 128 ≠ 0)
    (h3 : b3 &&& 128 ≠ 0) (h4 : b4 &&& 128 ≠ 0) :
    read_varint ([b0, b1, b2, b3, b4] ++ rest) 0
      = .error (.protocolError "Varint too long") := by
  rw [read_varint]
  simp only [List.drop_zero, List.cons_append, List.nil_append]
  rw [read_varint_loop, if_neg h0, if_neg (by omega)]
  rw [read_varint_loop, if_neg h1, if_neg (by omega)]
  rw [read_varint_loop, if_neg h2, if_neg (by omega)]
  rw [read_varint_loop, if_neg h3, if_neg (by omega)]
  rw [read_varint_loop, if_neg h4, if_pos (by omega)]

/-- C10 witness: six consecutive 0x80 bytes (the specification's
scenario). -/
theorem varint_overflow_guard_witness :
    ((128 : Nat) &&& 128 ≠ 0)
    ∧ read_varint [128, 128, 128, 128, 128, 128] 0
      = .error (.protocolError "Varint too long") :=
  ⟨by decide, varint_overflow_guard 128 128 128 128 128 [128]
    (by decide) (by decide) (by decide) (by decide) (by decide)⟩
